import Mathlib

/-!
Verification of the FinInsightAI import-and-categorization core.

The TypeScript sources are shallowly embedded:
* JS strings are `List Char` (`JsStr`); JS string builtins (`toLowerCase`,
  `includes`, `trim`, `split`, `padStart`) are re-implemented below with the
  semantics of the builtin restricted to the inputs this code produces
  (ASCII case-mapping, single-character separators).
* JS numbers are modeled exactly: every number this code computes is a
  decimal, represented as `JsNum` (mantissa × 10^exponent over `ℤ`) with the
  rational interpretation `JsNum.toQ`; `NaN` is modeled by `Option`
  (`none` = NaN).  The claims below only concern sign, zero-ness and absolute
  value, where exact decimals and IEEE doubles agree on the inputs involved.
* The JS `RegExp` builtin is modeled by a compilation parameter
  `compile : JsStr → Option (JsStr → Bool)`; `new RegExp(pat)` throwing on a
  syntactically invalid pattern is `compile pat = none` (the source catches
  the throw and treats the rule as non-matching).
-/

namespace FinInsight

/-- JS strings, modeled as lists of characters. -/
abbrev JsStr := List Char

/-- Shorthand turning a Lean string literal into a `JsStr`. -/
def js (s : String) : JsStr := s.data

/-- Models `String.prototype.toLowerCase` on the ASCII range. -/
def jsToLower (s : JsStr) : JsStr := s.map Char.toLower

/-- Does `l` start with `pat`?  (Helper for JS `includes`.) -/
def startsWithSub : JsStr → JsStr → Bool
  | _, [] => true
  | [], _ :: _ => false
  | c :: cs, p :: ps => c = p && startsWithSub cs ps

/-- Models `String.prototype.includes`: does `pat` occur contiguously in `l`? -/
def containsSub (l pat : JsStr) : Bool :=
  match l with
  | [] => startsWithSub [] pat
  | c :: t => startsWithSub (c :: t) pat || containsSub t pat

/-- Exact decimal model of the JS numbers this program computes: the value
`mant * 10 ^ exp`.  Sign, zero-ness and absolute value — all any claim here
needs — agree with IEEE-754 doubles on the inputs involved. -/
structure JsNum where
  mant : ℤ
  exp : ℤ
deriving DecidableEq, Repr

/-- Rational value of a `JsNum`. -/
def JsNum.toQ (x : JsNum) : ℚ := (x.mant : ℚ) * (10 : ℚ) ^ x.exp

/-- `Math.abs`. -/
def JsNum.abs (x : JsNum) : JsNum := ⟨|x.mant|, x.exp⟩

/-- `src/types.ts`: enum `TransactionType`. -/
inductive TransactionType where
  | INCOME
  | EXPENSE
deriving DecidableEq, Repr

/-- `src/types.ts`: interface `Transaction` (field `category` is a plain
string there; `source` is optional). -/
structure Transaction where
  id : JsStr
  date : JsStr
  description : JsStr
  amount : JsNum
  type : TransactionType
  category : JsStr
  source : Option JsStr
deriving DecidableEq, Repr

/-- `src/types.ts`: interface `CategorizationRule` (`isRegex?` is an optional
boolean; `undefined` is falsy, so it is modeled as `Bool`). -/
structure CategorizationRule where
  id : JsStr
  keyword : JsStr
  category : JsStr
  isRegex : Bool
deriving DecidableEq, Repr

/-- The comparator `(a, b) => b.keyword.length - a.keyword.length` used by
`applyRulesToTransactions` (`src/hooks/useSessionData.ts:7`): `a` may come
before `b` iff `b`'s keyword is no longer than `a`'s. -/
def ruleLE (a b : CategorizationRule) : Prop :=
  b.keyword.length ≤ a.keyword.length

instance : DecidableRel ruleLE := fun _ _ => Nat.decLe _ _

instance : IsTotal CategorizationRule ruleLE :=
  ⟨fun a b => (Nat.le_total b.keyword.length a.keyword.length).imp id id⟩

instance : IsTrans CategorizationRule ruleLE :=
  ⟨fun _ _ _ h1 h2 => Nat.le_trans h2 h1⟩

/-- `[...rules].sort((a, b) => b.keyword.length - a.keyword.length)` from
`src/hooks/useSessionData.ts:7`.  JS `Array.prototype.sort` is stable; a
stable sort under this comparator is exactly insertion sort under `ruleLE`. -/
def sortRules (rules : List CategorizationRule) : List CategorizationRule :=
  List.insertionSort ruleLE rules

/-- The rule-matching predicate from `src/hooks/useSessionData.ts:9-21`.
`compile` models the `new RegExp(keyword, 'i')` builtin: `none` means the
constructor threw (invalid pattern), which the source catches, returning
`false`. -/
def ruleMatches (compile : JsStr → Option (JsStr → Bool))
    (r : CategorizationRule) (description : JsStr) : Bool :=
  if r.isRegex then
    match compile r.keyword with
    | some test => test description
    | none => false
  else
    containsSub (jsToLower description) (jsToLower r.keyword)

/-- `applyRulesToTransactions` from `src/hooks/useSessionData.ts:5-24`
(the source's `sortedRules` binding is inlined as `sortRules rules`). -/
def applyRulesToTransactions (compile : JsStr → Option (JsStr → Bool))
    (transactions : List Transaction) (rules : List CategorizationRule) :
    List Transaction :=
  if rules.length = 0 then transactions
  else
    transactions.map fun t =>
      match (sortRules rules).find? (fun r => ruleMatches compile r t.description) with
      | some matchingRule => { t with category := matchingRule.category }
      | none => t

/-- C1 — Rule application is idempotent: applying
`applyRulesToTransactions` twice with the same rule list gives the same
result as applying it once, for every transaction list, rule list, and
regex-compilation oracle. -/
theorem applyRules_idempotent (compile : JsStr → Option (JsStr → Bool))
    (T : List Transaction) (R : List CategorizationRule) :
    applyRulesToTransactions compile (applyRulesToTransactions compile T R) R =
      applyRulesToTransactions compile T R := by
  by_cases h : R.length = 0
  · simp [applyRulesToTransactions, h]
  · simp only [applyRulesToTransactions, if_neg h, List.map_map]
    refine List.map_congr_left ?_
    intro t _
    simp only [Function.comp_apply]
    cases hfind : (sortRules R).find? (fun r => ruleMatches compile r t.description) with
    | none => simp [hfind]
    | some r =>
      have hdesc : ({ t with category := r.category } : Transaction).description
          = t.description := rfl
      simp only [hfind, hdesc]

/-- C2 — Specificity tie-break: if two rules both match a description and
their keywords have different lengths, the rule with the longer keyword
determines the resulting category, for both insertion orders of the two
rules. -/
theorem applyRules_longer_keyword_wins (compile : JsStr → Option (JsStr → Bool))
    (r1 r2 : CategorizationRule) (d : JsStr)
    (h1 : ruleMatches compile r1 d = true)
    (_h2 : ruleMatches compile r2 d = true)
    (hlen : r2.keyword.length < r1.keyword.length)
    (t : Transaction) (ht : t.description = d) :
    applyRulesToTransactions compile [t] [r1, r2]
        = [{ t with category := r1.category }] ∧
    applyRulesToTransactions compile [t] [r2, r1]
        = [{ t with category := r1.category }] := by
  have hle : ruleLE r1 r2 := le_of_lt hlen
  have hnle : ¬ ruleLE r2 r1 := not_le.mpr hlen
  constructor <;>
    simp [applyRulesToTransactions, sortRules, List.insertionSort,
      List.orderedInsert, hle, hnle, List.find?, ht, h1]

/-- C2 witness — the spec's scenario: `{keyword:"uber", category:"Transport"}`
and `{keyword:"uber eats", category:"Food"}` both match
`"UBER EATS ORDER #123"`; the longer keyword's category `"Food"` wins in
either insertion order. -/
theorem applyRules_longer_keyword_wins_witness :
    applyRulesToTransactions (fun _ => none)
        [⟨js "1", js "2023-10-06", js "UBER EATS ORDER #123", ⟨25, 0⟩,
          TransactionType.EXPENSE, js "Uncategorized", none⟩]
        [⟨js "rA", js "uber eats", js "Food", false⟩,
         ⟨js "rB", js "uber", js "Transport", false⟩]
      = [⟨js "1", js "2023-10-06", js "UBER EATS ORDER #123", ⟨25, 0⟩,
          TransactionType.EXPENSE, js "Food", none⟩] ∧
    applyRulesToTransactions (fun _ => none)
        [⟨js "1", js "2023-10-06", js "UBER EATS ORDER #123", ⟨25, 0⟩,
          TransactionType.EXPENSE, js "Uncategorized", none⟩]
        [⟨js "rB", js "uber", js "Transport", false⟩,
         ⟨js "rA", js "uber eats", js "Food", false⟩]
      = [⟨js "1", js "2023-10-06", js "UBER EATS ORDER #123", ⟨25, 0⟩,
          TransactionType.EXPENSE, js "Food", none⟩] :=
  applyRules_longer_keyword_wins (fun _ => none)
    ⟨js "rA", js "uber eats", js "Food", false⟩
    ⟨js "rB", js "uber", js "Transport", false⟩
    (js "UBER EATS ORDER #123")
    (by decide) (by decide) (by decide) _ rfl

/-- Strict version of the rule comparator: `a` strictly precedes `b` when
`a`'s keyword is strictly longer. -/
def ruleGT (a b : CategorizationRule) : Prop :=
  b.keyword.length < a.keyword.length

instance : IsAntisymm CategorizationRule ruleGT :=
  ⟨fun _ _ h1 h2 => absurd (Nat.lt_trans h1 h2) (Nat.lt_irrefl _)⟩

/-- C8 counterexample — permutation invariance fails as stated: two literal
rules with equal-length keywords `"ab" → "X"` and `"cd" → "Y"` both match the
description `"abcd"`; swapping their insertion order changes the resulting
category (the JS sort is stable, so equal-length keywords keep insertion
order). -/
theorem applyRules_perm_counterexample :
    ([⟨js "b", js "cd", js "Y", false⟩, ⟨js "a", js "ab", js "X", false⟩] :
        List CategorizationRule).Perm
      [⟨js "a", js "ab", js "X", false⟩, ⟨js "b", js "cd", js "Y", false⟩] ∧
    applyRulesToTransactions (fun _ => none)
        [⟨js "1", js "2023-10-01", js "abcd", ⟨5, 0⟩, TransactionType.EXPENSE,
          js "Uncategorized", none⟩]
        [⟨js "a", js "ab", js "X", false⟩, ⟨js "b", js "cd", js "Y", false⟩] ≠
      applyRulesToTransactions (fun _ => none)
        [⟨js "1", js "2023-10-01", js "abcd", ⟨5, 0⟩, TransactionType.EXPENSE,
          js "Uncategorized", none⟩]
        [⟨js "b", js "cd", js "Y", false⟩, ⟨js "a", js "ab", js "X", false⟩] := by
  constructor
  · exact List.Perm.swap _ _ _
  · decide

/-- C8 (amended) — rule ordering is insertion-order independent for rule
lists in which no two rules have keywords of equal length: for every such
rule list `R` and every permutation `R'` of it,
`applyRulesToTransactions T R = applyRulesToTransactions T R'`. -/
theorem applyRules_perm_invariant (compile : JsStr → Option (JsStr → Bool))
    (T : List Transaction) (R R' : List CategorizationRule)
    (hperm : R.Perm R')
    (hdist : R.Pairwise fun a b => a.keyword.length ≠ b.keyword.length) :
    applyRulesToTransactions compile T R = applyRulesToTransactions compile T R' := by
  have hlen : R.length = R'.length := hperm.length_eq
  by_cases h : R.length = 0
  · have h' : R'.length = 0 := by omega
    simp [applyRulesToTransactions, h, h']
  · have h' : ¬ R'.length = 0 := by omega
    have hsymm : Symmetric (fun a b : CategorizationRule =>
        a.keyword.length ≠ b.keyword.length) := fun _ _ hab => hab.symm
    have hp1 : (sortRules R).Perm R := List.perm_insertionSort ruleLE R
    have hp2 : (sortRules R').Perm R' := List.perm_insertionSort ruleLE R'
    have hdist1 : (sortRules R).Pairwise fun a b =>
        a.keyword.length ≠ b.keyword.length :=
      (hp1.pairwise_iff @hsymm).mpr hdist
    have hdist2 : (sortRules R').Pairwise fun a b =>
        a.keyword.length ≠ b.keyword.length :=
      (hp2.pairwise_iff @hsymm).mpr ((hperm.pairwise_iff @hsymm).mp hdist)
    have hstrict1 : List.Sorted ruleGT (sortRules R) :=
      ((List.sorted_insertionSort ruleLE R).and hdist1).imp
        fun hab => lt_of_le_of_ne hab.1 hab.2.symm
    have hstrict2 : List.Sorted ruleGT (sortRules R') :=
      ((List.sorted_insertionSort ruleLE R').and hdist2).imp
        fun hab => lt_of_le_of_ne hab.1 hab.2.symm
    have hsorteq : sortRules R = sortRules R' :=
      List.eq_of_perm_of_sorted (hp1.trans (hperm.trans hp2.symm)) hstrict1 hstrict2
    simp only [applyRulesToTransactions, if_neg h, if_neg h', hsorteq]

/-- C8 witness — for the distinct-length rules `"uber eats" → "Food"` and
`"uber" → "Transport"`, both insertion orders give the same output. -/
theorem applyRules_perm_invariant_witness :
    applyRulesToTransactions (fun _ => none)
        [⟨js "1", js "2023-10-06", js "UBER EATS ORDER #123", ⟨25, 0⟩,
          TransactionType.EXPENSE, js "Uncategorized", none⟩]
        [⟨js "rA", js "uber eats", js "Food", false⟩,
         ⟨js "rB", js "uber", js "Transport", false⟩] =
      applyRulesToTransactions (fun _ => none)
        [⟨js "1", js "2023-10-06", js "UBER EATS ORDER #123", ⟨25, 0⟩,
          TransactionType.EXPENSE, js "Uncategorized", none⟩]
        [⟨js "rB", js "uber", js "Transport", false⟩,
         ⟨js "rA", js "uber eats", js "Food", false⟩] :=
  applyRules_perm_invariant (fun _ => none) _ _ _
    (List.Perm.swap _ _ _) (by decide)

/-- Inserting `a` into a sorted list that decomposes as `u ++ x :: v` yields
a list that still decomposes around the same occurrence of `x`, compatibly
with inserting `a` into `u ++ v`. -/
theorem orderedInsert_mid (a x : CategorizationRule)
    (u v : List CategorizationRule) (hsort : (u ++ x :: v).Sorted ruleLE) :
    ∃ u' v', List.orderedInsert ruleLE a (u ++ x :: v) = u' ++ x :: v' ∧
      List.orderedInsert ruleLE a (u ++ v) = u' ++ v' := by
  induction u with
  | nil =>
    simp only [List.nil_append] at hsort ⊢
    by_cases h : ruleLE a x
    · refine ⟨[a], v, by simp [List.orderedInsert, if_pos h], ?_⟩
      cases v with
      | nil => simp [List.orderedInsert]
      | cons w v' =>
        have hxw : ruleLE x w := (List.sorted_cons.mp hsort).1 w (by simp)
        have haw : ruleLE a w := Nat.le_trans hxw h
        simp [List.orderedInsert, if_pos haw]
    · exact ⟨[], List.orderedInsert ruleLE a v,
        by simp [List.orderedInsert, if_neg h], rfl⟩
  | cons b u₁ ih =>
    have hsort' : (u₁ ++ x :: v).Sorted ruleLE :=
      (List.sorted_cons.mp (by simpa using hsort)).2
    by_cases h : ruleLE a b
    · exact ⟨a :: b :: u₁, v, by simp [List.orderedInsert, if_pos h],
        by simp [List.orderedInsert, if_pos h]⟩
    · obtain ⟨u', v', h1, h2⟩ := ih hsort'
      exact ⟨b :: u', v', by simp [List.orderedInsert, if_neg h, h1],
        by simp [List.orderedInsert, if_neg h, h2]⟩

/-- The stable sort of a list with a distinguished element `x` decomposes as
`u ++ x :: v` where `u ++ v` is the stable sort of the list without `x`. -/
theorem sortRules_mid (x : CategorizationRule) (l₁ l₂ : List CategorizationRule) :
    ∃ u v, sortRules (l₁ ++ x :: l₂) = u ++ x :: v ∧
      sortRules (l₁ ++ l₂) = u ++ v := by
  induction l₁ with
  | nil =>
    refine ⟨(sortRules l₂).takeWhile (fun b => decide ¬ ruleLE x b),
      (sortRules l₂).dropWhile (fun b => decide ¬ ruleLE x b), ?_, ?_⟩
    · simpa [sortRules, List.insertionSort] using
        List.orderedInsert_eq_take_drop ruleLE x (sortRules l₂)
    · simp [sortRules, List.takeWhile_append_dropWhile]
  | cons a l₁ ih =>
    obtain ⟨u, v, h1, h2⟩ := ih
    have hs : (u ++ x :: v).Sorted ruleLE :=
      h1 ▸ List.sorted_insertionSort ruleLE (l₁ ++ x :: l₂)
    obtain ⟨u', v', g1, g2⟩ := orderedInsert_mid a x u v hs
    refine ⟨u', v', ?_, ?_⟩
    · have : sortRules (a :: (l₁ ++ x :: l₂))
          = List.orderedInsert ruleLE a (sortRules (l₁ ++ x :: l₂)) := rfl
      simpa [this, h1] using g1
    · have : sortRules (a :: (l₁ ++ l₂))
          = List.orderedInsert ruleLE a (sortRules (l₁ ++ l₂)) := rfl
      simpa [this, h2] using g2

/-- `find?` skips an element on which the predicate is false, wherever that
element sits in the list. -/
theorem find?_mid (p : CategorizationRule → Bool) (x : CategorizationRule)
    (hx : p x = false) (u v : List CategorizationRule) :
    (u ++ x :: v).find? p = (u ++ v).find? p := by
  induction u with
  | nil => simp [List.find?_cons, hx]
  | cons b u ih => cases hb : p b <;> simp [List.find?_cons, hb, ih]

/-- C4 — an invalid regex rule never matches and never disturbs the batch:
when the regex builtin rejects `pat` (`compile pat = none`, i.e.
`new RegExp(pat)` throws and the source catches it), a regex rule with
keyword `pat` matches no description, and `applyRulesToTransactions` with
that rule present anywhere in the rule list gives the same (totally defined,
never-throwing) result as with the rule removed. -/
theorem invalid_regex_harmless (compile : JsStr → Option (JsStr → Bool))
    (pat : JsStr) (hpat : compile pat = none) (rid rcat : JsStr) :
    (∀ d, ruleMatches compile ⟨rid, pat, rcat, true⟩ d = false) ∧
    ∀ (T : List Transaction) (l₁ l₂ : List CategorizationRule),
      applyRulesToTransactions compile T (l₁ ++ ⟨rid, pat, rcat, true⟩ :: l₂) =
        applyRulesToTransactions compile T (l₁ ++ l₂) := by
  have hm : ∀ d, ruleMatches compile ⟨rid, pat, rcat, true⟩ d = false := by
    intro d; simp [ruleMatches, hpat]
  refine ⟨hm, ?_⟩
  intro T l₁ l₂
  by_cases h : (l₁ ++ l₂).length = 0
  · have h1 : l₁ = [] := by
      cases l₁ with
      | nil => rfl
      | cons a l => simp [List.length_append] at h
    have h2 : l₂ = [] := by
      cases l₂ with
      | nil => rfl
      | cons a l => simp [List.length_append] at h
    subst h1; subst h2
    simp only [List.nil_append, applyRulesToTransactions]
    have : ∀ t : Transaction,
        (sortRules [⟨rid, pat, rcat, true⟩]).find?
          (fun r => ruleMatches compile r t.description) = none := by
      intro t
      simp [sortRules, List.insertionSort, List.orderedInsert,
        List.find?_cons, hm t.description]
    simp [this]
  · have h' : ¬ (l₁ ++ ⟨rid, pat, rcat, true⟩ :: l₂).length = 0 := by
      simp [List.length_append]
    simp only [applyRulesToTransactions, if_neg h, if_neg h']
    refine List.map_congr_left ?_
    intro t _
    obtain ⟨u, v, g1, g2⟩ := sortRules_mid ⟨rid, pat, rcat, true⟩ l₁ l₂
    rw [g1, g2, find?_mid _ _ (hm t.description)]

/-- C4 witness — the spec's scenario: the invalid regex rule keyword
`"(unclosed"` matches nothing, and a batch containing it categorizes exactly
as the batch without it. -/
theorem invalid_regex_harmless_witness :
    ruleMatches (fun _ => none)
        ⟨js "r1", js "(unclosed", js "Shopping", true⟩
        (js "UBER EATS ORDER #123") = false ∧
    applyRulesToTransactions (fun _ => none)
        [⟨js "1", js "2023-10-06", js "UBER EATS ORDER #123", ⟨25, 0⟩,
          TransactionType.EXPENSE, js "Uncategorized", none⟩]
        [⟨js "r1", js "(unclosed", js "Shopping", true⟩,
         ⟨js "rB", js "uber", js "Transport", false⟩] =
      applyRulesToTransactions (fun _ => none)
        [⟨js "1", js "2023-10-06", js "UBER EATS ORDER #123", ⟨25, 0⟩,
          TransactionType.EXPENSE, js "Uncategorized", none⟩]
        [⟨js "rB", js "uber", js "Transport", false⟩] := by
  obtain ⟨hm, happ⟩ := invalid_regex_harmless (fun _ => none)
    (js "(unclosed") rfl (js "r1") (js "Shopping")
  exact ⟨hm _, happ _ [] [⟨js "rB", js "uber", js "Transport", false⟩]⟩

/-- JS whitespace test used by `trim`. -/
def isJsSpace (c : Char) : Bool := c.isWhitespace

/-- Models `String.prototype.trim`. -/
def jsTrim (s : JsStr) : JsStr :=
  ((s.dropWhile isJsSpace).reverse.dropWhile isJsSpace).reverse

/-- Models `String.prototype.includes` for a single character. -/
def containsChar (s : JsStr) (c : Char) : Bool := s.any (· = c)

/-- Models `String.prototype.split` with a single-character separator
(`"".split(sep)` is `[""]`, as in JS). -/
def jsSplit : JsStr → Char → List JsStr
  | [], _ => [[]]
  | c :: t, sep =>
    if c = sep then [] :: jsSplit t sep
    else
      match jsSplit t sep with
      | h :: r => (c :: h) :: r
      | [] => [[c]]

/-- Models `String.prototype.padStart(w, '0')`. -/
def padStartZ (w : ℕ) (s : JsStr) : JsStr :=
  List.replicate (w - s.length) '0' ++ s

/-- Numeric value of a decimal digit character. -/
def digitVal (c : Char) : ℕ := c.toNat - 48

/-- Value of a list of decimal digit characters. -/
def digitsToNat (l : JsStr) : ℕ := l.foldl (fun acc c => 10 * acc + digitVal c) 0

/-- Parses an optionally signed all-digit tail (exponent payload of a JS
number literal); `none` on empty digits or trailing garbage. -/
def signedDigits (r : JsStr) : Option ℤ :=
  let p : ℤ × JsStr :=
    match r with
    | '-' :: t => (-1, t)
    | '+' :: t => (1, t)
    | _ => (1, r)
  let ds := p.2.takeWhile Char.isDigit
  let rest := p.2.dropWhile Char.isDigit
  if ds = [] ∨ rest ≠ [] then none else some (p.1 * (digitsToNat ds : ℤ))

/-- Exponent suffix of a JS number literal: empty, or `e`/`E` followed by a
signed digit run. -/
def expTail : JsStr → Option ℤ
  | [] => some 0
  | 'e' :: r => signedDigits r
  | 'E' :: r => signedDigits r
  | _ => none

/-- Models the `Number(str)` builtin on decimal strings: trims, accepts the
empty string as 0, an optional sign, digits with an optional fraction and an
optional exponent; `none` models `NaN`.  (Hex/octal/binary and `Infinity`
literals are not modeled; no input of this program's claims produces them.)
The value `(int + frac/10^|frac|) * 10^e` is represented exactly as the
decimal `digits(int ++ frac) * 10^(e - |frac|)`. -/
def jsNumberParse (s : JsStr) : Option JsNum :=
  let t := jsTrim s
  if t = [] then some ⟨0, 0⟩
  else
    let p : Bool × JsStr :=
      match t with
      | '-' :: r => (true, r)
      | '+' :: r => (false, r)
      | _ => (false, t)
    let intPart := p.2.takeWhile Char.isDigit
    let r2 := p.2.dropWhile Char.isDigit
    let q : JsStr × JsStr :=
      match r2 with
      | '.' :: r => (r.takeWhile Char.isDigit, r.dropWhile Char.isDigit)
      | _ => ([], r2)
    if intPart = [] ∧ q.1 = [] then none
    else
      match expTail q.2 with
      | none => none
      | some e =>
        let mant : ℤ := (digitsToNat (intPart ++ q.1) : ℤ)
        some ⟨if p.1 then -mant else mant, e - (q.1.length : ℤ)⟩

/-- Proleptic-Gregorian conversion of a day count since 1970-01-01 to
`(year, month, day)` (the civil-from-days algorithm; what `Date`'s UTC
calendar arithmetic computes). -/
def civilFromDays (z : ℤ) : ℤ × ℕ × ℕ :=
  let z' := z + 719468
  let era : ℤ := Int.fdiv z' 146097
  let doe : ℕ := (z' - era * 146097).toNat
  let yoe : ℕ := (doe - doe / 1460 + doe / 36524 - doe / 146096) / 365
  let y : ℤ := (yoe : ℤ) + era * 400
  let doy : ℕ := doe - (365 * yoe + yoe / 4 - yoe / 100)
  let mp : ℕ := (5 * doy + 2) / 153
  let d : ℕ := doy - (153 * mp + 2) / 5 + 1
  let m : ℕ := if mp < 10 then mp + 3 else mp - 9
  (if m ≤ 2 then y + 1 else y, m, d)

/-- Decimal rendering of a natural, left-padded with zeros to width `w`. -/
def natPad (w n : ℕ) : JsStr := padStartZ w (Nat.repr n).data

/-- The date part of `Date.prototype.toISOString` for a calendar day
(expanded-year notation outside 0000–9999, as in JS). -/
def isoOfYmd (y : ℤ) (m d : ℕ) : JsStr :=
  let ys : JsStr :=
    if 0 ≤ y ∧ y ≤ 9999 then natPad 4 y.toNat
    else if y < 0 then '-' :: natPad 6 y.natAbs
    else '+' :: natPad 6 y.toNat
  ys ++ '-' :: natPad 2 m ++ '-' :: natPad 2 d

/-- Lines 11-12 of `src/unnamed/part_004`:
`new Date(Math.round((n - 25569) * 86400 * 1000)).toISOString().split('T')[0]`.
The exact value `(n - 25569) * 86400000` is the fraction `p / q` below
(`q = 10^k` clears `n`'s negative exponent), and `Math.round(x) = ⌊x + 1/2⌋`
is `fdiv (2p + q) (2q)`.  Outside the representable `Date` range
(`|ms| > 8.64e15`) JS builds an Invalid Date and `toISOString` throws; the
throw is caught by the row-level `catch` in `parseMappedData`, so it is
modeled as `none` (only the recorded failure-reason string differs, which no
claim depends on). -/
def serialToIso (n : JsNum) : Option JsStr :=
  let k : ℕ := if n.exp < 0 then (-n.exp).toNat else 0
  let scaledMant : ℤ := if n.exp < 0 then n.mant else n.mant * (10 : ℤ) ^ n.exp.toNat
  let p : ℤ := (scaledMant - 25569 * (10 : ℤ) ^ k) * 86400000
  let q : ℤ := (10 : ℤ) ^ k
  let ms : ℤ := Int.fdiv (2 * p + q) (2 * q)
  if ms.natAbs ≤ 8640000000000000 then
    let days : ℤ := Int.fdiv ms 86400000
    let c := civilFromDays days
    some (isoOfYmd c.1 c.2.1 c.2.2)
  else none

/-- Whether year `y` is a Gregorian leap year. -/
def isLeapYear (y : ℕ) : Bool := (y % 4 = 0 && y % 100 ≠ 0) || y % 400 = 0

/-- Days in month `m` of year `y`. -/
def daysInMonth (y m : ℕ) : ℕ :=
  if m = 2 then (if isLeapYear y then 29 else 28)
  else if m = 4 ∨ m = 6 ∨ m = 9 ∨ m = 11 then 30 else 31

/-- Models `new Date(str)` followed by `toISOString().split('T')[0]` on a
strict ISO `YYYY-MM-DD` calendar-date string — the only shape the generic
else-branch of `parseDate` receives in this app.  A valid ISO date is parsed
as UTC midnight and re-rendered unchanged; anything else is conservatively
treated as an Invalid Date (`none`). -/
def jsDateParseIsoDate (cs : JsStr) : Option JsStr :=
  match cs with
  | [y1, y2, y3, y4, '-', m1, m2, '-', d1, d2] =>
    if y1.isDigit && y2.isDigit && y3.isDigit && y4.isDigit &&
        m1.isDigit && m2.isDigit && d1.isDigit && d2.isDigit then
      if 1 ≤ digitsToNat [m1, m2] && digitsToNat [m1, m2] ≤ 12 &&
          1 ≤ digitsToNat [d1, d2] &&
          digitsToNat [d1, d2] ≤
            daysInMonth (digitsToNat [y1, y2, y3, y4]) (digitsToNat [m1, m2])
      then some cs else none
    else none
  | _ => none

/-- `parseDate` from `src/unnamed/part_004:5-47`.  The argument is an
`Option` because a missing cell (`undefined`) is falsy, like `''`.  Returns
the canonical `YYYY-MM-DD` string or `none` (the source's `null`). -/
def parseDate (dateStr : Option JsStr) (format : JsStr) : Option JsStr :=
  match dateStr with
  | none => none
  | some s =>
    if s = [] then none
    else
      let cleanStr := jsTrim s
      if (jsNumberParse cleanStr).isSome && decide (cleanStr.length < 8) &&
          !(containsChar cleanStr '.') && !(containsChar cleanStr '/') then
        match jsNumberParse cleanStr with
        | some n => serialToIso n
        | none => none
      else if format = js "DD.MM.YYYY" then
        match jsSplit cleanStr '.' with
        | [d, m, y] =>
          let y' := if y.length = 2 then '2' :: '0' :: y else y
          some (y' ++ '-' :: padStartZ 2 m ++ '-' :: padStartZ 2 d)
        | _ => none
      else if format = js "MM/DD/YYYY" then
        match jsSplit cleanStr '/' with
        | [m, d, y] =>
          let y' := if y.length = 2 then '2' :: '0' :: y else y
          some (y' ++ '-' :: padStartZ 2 m ++ '-' :: padStartZ 2 d)
        | _ => none
      else jsDateParseIsoDate cleanStr

/-- Models `String.prototype.replace(',', '.')`: only the first comma is
replaced. -/
def replaceFirstComma : JsStr → JsStr
  | [] => []
  | ',' :: t => '.' :: t
  | c :: t => c :: replaceFirstComma t

/-- Models the `parseFloat` builtin on the character set `parseAmount`
produces (digits, `.`, `,`, `-`): skips leading whitespace, takes an optional
sign, a digit run, and an optional `.`-fraction, ignoring any trailing
garbage; `none` models `NaN`.  (Exponent notation cannot survive
`parseAmount`'s character filter, so it is not modeled.)  The value
`±(int + frac/10^|frac|)` is represented exactly as the decimal
`±digits(int ++ frac) * 10^(-|frac|)`. -/
def jsParseFloat (s : JsStr) : Option JsNum :=
  let cs := s.dropWhile isJsSpace
  let p : Bool × JsStr :=
    match cs with
    | '-' :: r => (true, r)
    | '+' :: r => (false, r)
    | _ => (false, cs)
  let intPart := p.2.takeWhile Char.isDigit
  let r2 := p.2.dropWhile Char.isDigit
  let fracPart :=
    match r2 with
    | '.' :: r => r.takeWhile Char.isDigit
    | _ => []
  if intPart = [] ∧ fracPart = [] then none
  else
    let mant : ℤ := (digitsToNat (intPart ++ fracPart) : ℤ)
    some ⟨if p.1 then -mant else mant, -(fracPart.length : ℤ)⟩

/-- `parseAmount` from `src/unnamed/part_004:50-69`.  The cells of the raw
grid are strings, so the source's `typeof amountStr === 'number'` branch is
unreachable and not modeled; `undefined` (missing cell) and `''` are falsy
and return 0.  `none` models `NaN`. -/
def parseAmount (amountStr : Option JsStr) (decimalSeparator : Char) : Option JsNum :=
  match amountStr with
  | none => some ⟨0, 0⟩
  | some s =>
    if s = [] then some ⟨0, 0⟩
    else
      let clean1 := (jsTrim s).filter fun c =>
        c.isDigit || c = '.' || c = ',' || c = '-'
      let clean2 :=
        if decimalSeparator = ',' then replaceFirstComma (clean1.filter (· ≠ '.'))
        else clean1.filter (· ≠ ',')
      jsParseFloat clean2

/-- `src/types.ts`: interface `ColumnMapping` (indices are JS numbers and may
be `-1` for "not present"). -/
structure ColumnMapping where
  dateIndex : ℤ
  descriptionIndex : ℤ
  amountIndex : ℤ
  categoryIndex : ℤ
  typeIndex : ℤ
deriving DecidableEq, Repr

/-- `src/types.ts`: interface `ImportSettings`. -/
structure ImportSettings where
  delimiter : JsStr
  dateFormat : JsStr
  decimalSeparator : Char
deriving DecidableEq, Repr

/-- A raw-row failure record pushed by `parseMappedData`
(`{ row: index + 2, raw: row, reason }`). -/
structure FailedRow where
  row : ℕ
  raw : List JsStr
  reason : JsStr
deriving DecidableEq, Repr

/-- The `{ success, failed }` result of `parseMappedData`. -/
structure ParsedResult where
  success : List Transaction
  failed : List FailedRow
deriving DecidableEq, Repr

/-- JS array indexing `row[i]`: `undefined` (`none`) when out of range or
negative. -/
def jsGetCell (row : List JsStr) (i : ℤ) : Option JsStr :=
  if 0 ≤ i then row.get? i.toNat else none

/-- JS truthiness of a possibly-`undefined` string: `undefined` and `''` are
falsy. -/
def jsTruthy (o : Option JsStr) : Bool :=
  match o with
  | some s => !s.isEmpty
  | none => false

/-- Lines 162-163 of `src/unnamed/part_004`: does the lower-cased type cell
contain an income-indicating token? -/
def hasIncomeToken (s : JsStr) : Bool :=
  let t := jsToLower s
  containsSub t (js "income") || containsSub t (js "haben") ||
    containsSub t (js "gutschrift")

/-- The type logic of `parseMappedData` (`src/unnamed/part_004:159-174`):
`let type = EXPENSE; if (typeRaw) { tokens ⇒ INCOME } else { sign }`.  Note
that a truthy type cell without an income token yields `EXPENSE` with no
sign inference. -/
def determineType (typeRaw : Option JsStr) (amount : JsNum) : TransactionType :=
  if jsTruthy typeRaw then
    if hasIncomeToken (typeRaw.getD []) then TransactionType.INCOME
    else TransactionType.EXPENSE
  else
    if 0 < amount.mant then TransactionType.INCOME else TransactionType.EXPENSE

/-- Line 147 of `src/unnamed/part_004`:
`typeRaw = mapping.typeIndex >= 0 ? row[mapping.typeIndex] : ''`. -/
def typeCell (mapping : ColumnMapping) (row : List JsStr) : Option JsStr :=
  if 0 ≤ mapping.typeIndex then jsGetCell row mapping.typeIndex else some []

/-- One iteration of the `rawData.forEach` body of `parseMappedData`
(`src/unnamed/part_004:138-193`): a row either becomes a transaction
(`Sum.inl`) or a failure record (`Sum.inr`).  `now` models `Date.now()`. -/
def processRow (mapping : ColumnMapping) (settings : ImportSettings)
    (now index : ℕ) (row : List JsStr) : Transaction ⊕ FailedRow :=
  let dateRaw := jsGetCell row mapping.dateIndex
  let descRaw := jsGetCell row mapping.descriptionIndex
  let amountRaw := jsGetCell row mapping.amountIndex
  let catRaw : Option JsStr :=
    if 0 ≤ mapping.categoryIndex then jsGetCell row mapping.categoryIndex
    else some []
  let typeRaw : Option JsStr := typeCell mapping row
  match parseDate dateRaw settings.dateFormat,
      parseAmount amountRaw settings.decimalSeparator with
  | some date, some amount =>
    let description :=
      if jsTruthy descRaw then jsTrim (descRaw.getD []) else js "Unknown"
    let finalAmount := amount.abs
    if finalAmount.mant = 0 then
      Sum.inr ⟨index + 2, row, js "Zero amount"⟩
    else
      Sum.inl
        { id := js "imp-" ++ (Nat.repr now).data ++ '-' :: (Nat.repr index).data
          date := date
          description := description
          amount := finalAmount
          type := determineType typeRaw amount
          category := if jsTruthy catRaw then catRaw.getD [] else js "Uncategorized"
          source := none }
  | _, _ => Sum.inr ⟨index + 2, row, js "Invalid Date or Amount"⟩

/-- `parseMappedData` from `src/unnamed/part_004:130-196`: every data row is
pushed onto exactly one of `success` / `failed`. -/
def parseMappedData (rawData : List (List JsStr)) (mapping : ColumnMapping)
    (settings : ImportSettings) (now : ℕ) : ParsedResult :=
  let results := rawData.enum.map fun p => processRow mapping settings now p.1 p.2
  { success := results.filterMap Sum.getLeft?
    failed := results.filterMap Sum.getRight? }

/-- Splitting a list of sums into its left and right parts loses nothing. -/
theorem length_filterMap_sum {α β : Type} (l : List (α ⊕ β)) :
    (l.filterMap Sum.getLeft?).length + (l.filterMap Sum.getRight?).length
      = l.length := by
  induction l with
  | nil => rfl
  | cons a l ih => cases a <;> simp [List.filterMap_cons] <;> omega

/-- C3 — row-count conservation: for every raw grid, column mapping and
settings, `parseMappedData` distributes every input row into exactly one of
`success` / `failed`, so the lengths add up to the number of data rows. -/
theorem parseMappedData_row_conservation (rawData : List (List JsStr))
    (mapping : ColumnMapping) (settings : ImportSettings) (now : ℕ) :
    (parseMappedData rawData mapping settings now).success.length +
      (parseMappedData rawData mapping settings now).failed.length
      = rawData.length := by
  simp only [parseMappedData]
  rw [length_filterMap_sum]
  simp [List.enum_length]

/-- A successful row always carries the absolute value of the parsed amount,
whose mantissa is non-negative. -/
theorem processRow_amount_mant_nonneg (mapping : ColumnMapping)
    (settings : ImportSettings) (now index : ℕ) (row : List JsStr)
    (t : Transaction) (h : processRow mapping settings now index row = Sum.inl t) :
    0 ≤ t.amount.mant := by
  simp only [processRow] at h
  split at h
  case _ amount _ _ =>
    split at h
    · exact absurd h (by simp)
    · simp only [Sum.inl.injEq] at h
      subst h
      exact abs_nonneg amount.mant
  case _ => exact absurd h (by simp)

/-- C6 — sign-erasure invariant: every transaction in the `success` list of
`parseMappedData` has a non-negative amount (the raw cell's sign is
discarded by `Math.abs`; the direction of the money flow is carried by the
`type` field alone). -/
theorem parseMappedData_amount_nonneg (rawData : List (List JsStr))
    (mapping : ColumnMapping) (settings : ImportSettings) (now : ℕ)
    (t : Transaction)
    (ht : t ∈ (parseMappedData rawData mapping settings now).success) :
    0 ≤ t.amount.toQ := by
  have hmant : 0 ≤ t.amount.mant := by
    simp only [parseMappedData, List.mem_filterMap] at ht
    obtain ⟨r, hr, hmatch⟩ := ht
    cases r with
    | inl t' =>
      simp only [Sum.getLeft?_inl, Option.some.injEq] at hmatch
      subst hmatch
      simp only [List.mem_map] at hr
      obtain ⟨p, _, hp⟩ := hr
      exact processRow_amount_mant_nonneg _ _ _ _ _ _ hp
    | inr f => simp at hmatch
  have hpow : (0 : ℚ) < (10 : ℚ) ^ t.amount.exp :=
    zpow_pos (by norm_num) _
  exact mul_nonneg (by exact_mod_cast hmant) (le_of_lt hpow)

/-- C6 witness — the spec's German-settings scenario: the row with amount
cell `"-1.234,56"` produces a transaction whose stored amount (1234.56) is
non-negative. -/
theorem parseMappedData_amount_nonneg_witness :
    (⟨js "imp-7-0", js "2023-12-25", js "Miete Dezember", ⟨123456, -2⟩,
        TransactionType.EXPENSE, js "Uncategorized", none⟩ : Transaction) ∈
      (parseMappedData [[js "25.12.2023", js "Miete Dezember", js "-1.234,56"]]
        ⟨0, 1, 2, -1, -1⟩ ⟨js ";", js "DD.MM.YYYY", ','⟩ 7).success ∧
    0 ≤ (⟨js "imp-7-0", js "2023-12-25", js "Miete Dezember", ⟨123456, -2⟩,
        TransactionType.EXPENSE, js "Uncategorized", none⟩ : Transaction).amount.toQ :=
  ⟨by decide, parseMappedData_amount_nonneg
    [[js "25.12.2023", js "Miete Dezember", js "-1.234,56"]]
    ⟨0, 1, 2, -1, -1⟩ ⟨js ";", js "DD.MM.YYYY", ','⟩ 7 _ (by decide)⟩

/-- C10 — empty-amount edge case: a row whose mapped amount cell is missing
or empty but whose date cell parses gets `parseAmount = 0` (not `NaN`), so
`parseMappedData` records it in `failed` with reason `"Zero amount"` rather
than `"Invalid Date or Amount"`. -/
theorem parseMappedData_empty_amount_zero (rawData : List (List JsStr))
    (mapping : ColumnMapping) (settings : ImportSettings) (now index : ℕ)
    (row : List JsStr) (hrow : rawData.get? index = some row)
    (hamt : jsGetCell row mapping.amountIndex = none ∨
      jsGetCell row mapping.amountIndex = some [])
    (hdate : (parseDate (jsGetCell row mapping.dateIndex)
      settings.dateFormat).isSome = true) :
    parseAmount (jsGetCell row mapping.amountIndex) settings.decimalSeparator
        = some ⟨0, 0⟩ ∧
    (⟨index + 2, row, js "Zero amount"⟩ : FailedRow) ∈
      (parseMappedData rawData mapping settings now).failed := by
  have hpa : parseAmount (jsGetCell row mapping.amountIndex)
      settings.decimalSeparator = some ⟨0, 0⟩ := by
    rcases hamt with h | h <;> rw [h] <;> rfl
  refine ⟨hpa, ?_⟩
  obtain ⟨d, hd⟩ := Option.isSome_iff_exists.mp hdate
  have hpr : processRow mapping settings now index row
      = Sum.inr ⟨index + 2, row, js "Zero amount"⟩ := by
    simp only [processRow, hd, hpa]
    simp [JsNum.abs]
  simp only [parseMappedData, List.mem_filterMap]
  refine ⟨Sum.inr ⟨index + 2, row, js "Zero amount"⟩, ?_, rfl⟩
  simp only [List.mem_map]
  refine ⟨(index, row), ?_, hpr⟩
  have henum := List.get?_enum rawData index
  rw [hrow] at henum
  exact List.get?_mem henum

/-- C10 witness — a row `["25.12.2023", "x", ""]` (empty amount, parseable
date) lands in `failed` with reason `"Zero amount"`. -/
theorem parseMappedData_empty_amount_zero_witness :
    parseAmount (jsGetCell [js "25.12.2023", js "x", js ""] 2) ','
        = some ⟨0, 0⟩ ∧
    (⟨2, [js "25.12.2023", js "x", js ""], js "Zero amount"⟩ : FailedRow) ∈
      (parseMappedData [[js "25.12.2023", js "x", js ""]]
        ⟨0, 1, 2, -1, -1⟩ ⟨js ";", js "DD.MM.YYYY", ','⟩ 7).failed :=
  parseMappedData_empty_amount_zero
    [[js "25.12.2023", js "x", js ""]] ⟨0, 1, 2, -1, -1⟩
    ⟨js ";", js "DD.MM.YYYY", ','⟩ 7 0 [js "25.12.2023", js "x", js ""]
    (by decide) (by decide) (by decide)

/-- C5 counterexample — the claim's "otherwise infer from the sign" is
false when a mapped type cell is non-empty but contains no income token: row
`["25.12.2023", "Payroll", "50", "debit"]` has a mapped, non-token type cell
and a strictly positive parsed amount, yet the produced transaction is
EXPENSE (the code never falls back to sign inference for a truthy type
cell), where the claim demands INCOME. -/
theorem parseMappedData_type_sign_counterexample :
    (parseMappedData [[js "25.12.2023", js "Payroll", js "50", js "debit"]]
        ⟨0, 1, 2, -1, 3⟩ ⟨js ";", js "DD.MM.YYYY", ','⟩ 7).success.map
        (fun t => t.type) = [TransactionType.EXPENSE] ∧
    parseAmount (some (js "50")) ',' = some ⟨50, 0⟩ ∧
    (0 : ℤ) < 50 ∧
    hasIncomeToken (js "debit") = false ∧
    TransactionType.EXPENSE ≠ TransactionType.INCOME := by decide

/-- C5 (amended) — type determination: a successful row's type is INCOME
iff either the type cell is truthy (mapped and non-empty) and contains an
income-indicating token, or the type cell is falsy (unmapped, missing or
empty) and the parsed amount is strictly positive.  In particular a truthy
type cell without a token forces EXPENSE with no sign inference. -/
theorem processRow_type_income_iff (mapping : ColumnMapping)
    (settings : ImportSettings) (now index : ℕ) (row : List JsStr)
    (t : Transaction) (a : JsNum)
    (h : processRow mapping settings now index row = Sum.inl t)
    (ha : parseAmount (jsGetCell row mapping.amountIndex)
      settings.decimalSeparator = some a) :
    t.type = TransactionType.INCOME ↔
      (jsTruthy (typeCell mapping row) = true ∧
        hasIncomeToken ((typeCell mapping row).getD []) = true) ∨
      (jsTruthy (typeCell mapping row) = false ∧ 0 < a.mant) := by
  have htype : t.type = determineType (typeCell mapping row) a := by
    cases hd : parseDate (jsGetCell row mapping.dateIndex) settings.dateFormat with
    | none =>
      simp only [processRow, ha, hd] at h
      exact absurd h (by simp)
    | some d =>
      simp only [processRow, ha, hd] at h
      by_cases hz : (JsNum.abs a).mant = 0
      · rw [if_pos hz] at h
        exact absurd h (by simp)
      · rw [if_neg hz] at h
        simp only [Sum.inl.injEq] at h
        subst h
        rfl
  rw [htype]
  unfold determineType
  cases hjt : jsTruthy (typeCell mapping row) with
  | true =>
    cases hti : hasIncomeToken ((typeCell mapping row).getD []) with
    | true => simp [hti]
    | false => simp [hti]
  | false =>
    by_cases hm : 0 < a.mant
    · simp [hm]
    · simp [hm]

/-- C5 witness — for the counterexample row the amended characterization
instantiates: the produced EXPENSE agrees with "truthy type cell without
token ⇒ not INCOME". -/
theorem processRow_type_income_iff_witness :
    (⟨js "imp-7-0", js "2023-12-25", js "Payroll", ⟨50, 0⟩,
        TransactionType.EXPENSE, js "Uncategorized", none⟩ : Transaction).type
        = TransactionType.INCOME ↔
      (jsTruthy (typeCell ⟨0, 1, 2, -1, 3⟩
          [js "25.12.2023", js "Payroll", js "50", js "debit"]) = true ∧
        hasIncomeToken ((typeCell ⟨0, 1, 2, -1, 3⟩
          [js "25.12.2023", js "Payroll", js "50", js "debit"]).getD [])
          = true) ∨
      (jsTruthy (typeCell ⟨0, 1, 2, -1, 3⟩
          [js "25.12.2023", js "Payroll", js "50", js "debit"]) = false ∧
        0 < (⟨50, 0⟩ : JsNum).mant) :=
  processRow_type_income_iff ⟨0, 1, 2, -1, 3⟩ ⟨js ";", js "DD.MM.YYYY", ','⟩
    7 0 [js "25.12.2023", js "Payroll", js "50", js "debit"]
    ⟨js "imp-7-0", js "2023-12-25", js "Payroll", ⟨50, 0⟩,
      TransactionType.EXPENSE, js "Uncategorized", none⟩ ⟨50, 0⟩
    (by decide) (by decide)

/-- Models `Array.prototype.findIndex`: index of the first element
satisfying `p`, or `-1`. -/
def jsFindIndex {α : Type} (p : α → Bool) : List α → ℤ
  | [] => -1
  | a :: t =>
    if p a then 0
    else
      let r := jsFindIndex p t
      if r = -1 then -1 else r + 1

/-- `findIndex` returns `-1` when no element satisfies the predicate. -/
theorem jsFindIndex_of_forall {α : Type} (p : α → Bool) (l : List α)
    (h : ∀ x ∈ l, p x = false) : jsFindIndex p l = -1 := by
  induction l with
  | nil => rfl
  | cons a t ih =>
    simp only [jsFindIndex, h a (by simp)]
    rw [ih fun x hx => h x (by simp [hx])]
    simp

/-- `findIndex` returns `i` when the element at `i` satisfies the predicate
and no earlier element does. -/
theorem jsFindIndex_eq_of {α : Type} (p : α → Bool) (l : List α) (i : ℕ)
    (c : α) (hc : l.get? i = some c) (hp : p c = true)
    (hlt : ∀ j, j < i → p ((l.get? j).getD c) = false) :
    jsFindIndex p l = (i : ℤ) := by
  induction l generalizing i with
  | nil => simp at hc
  | cons a t ih =>
    cases i with
    | zero =>
      simp only [List.get?] at hc
      obtain rfl : a = c := by injection hc
      simp [jsFindIndex, hp]
    | succ i =>
      have ha : p a = false := by
        have := hlt 0 (Nat.succ_pos i)
        simpa using this
      have hr : jsFindIndex p t = (i : ℤ) := by
        refine ih i ?_ ?_
        · simpa using hc
        · intro j hj
          have := hlt (j + 1) (by omega)
          simpa using this
      simp only [jsFindIndex, ha]
      rw [hr]
      have : ((i : ℤ)) ≠ -1 := by omega
      simp only [if_neg this]
      push_cast
      ring

/-- Truthiness of `c.match(/\d/)`: the cell contains a decimal digit. -/
def hasDigitStr (s : JsStr) : Bool := s.any Char.isDigit

/-- The separator character class (dot, slash, dash) of the date-sniffing regex. -/
def isSepCh (c : Char) : Bool := c = '.' || c = '/' || c = '-'

/-- Consume exactly `k` decimal digits, returning the rest. -/
def consumeDigits : JsStr → ℕ → Option JsStr
  | s, 0 => some s
  | [], _ + 1 => none
  | c :: t, k + 1 => if c.isDigit then consumeDigits t k else none

/-- Match of `\d{1,4}[-./]\d{1,2}[-./]\d{1,4}` anchored at the start of
the string: some choice of run lengths (the regex backtracks) fits. -/
def dateLikeAt (s : JsStr) : Bool :=
  [1, 2, 3, 4].any fun k1 =>
    match consumeDigits s k1 with
    | none => false
    | some r1 =>
      match r1 with
      | [] => false
      | c1 :: r1' =>
        isSepCh c1 && ([1, 2].any fun k2 =>
          match consumeDigits r1' k2 with
          | none => false
          | some r2 =>
            match r2 with
            | [] => false
            | c2 :: r2' =>
              isSepCh c2 && ([1, 2, 3, 4].any fun k3 =>
                (consumeDigits r2' k3).isSome))

/-- Unanchored regex search: the pattern matches at some suffix. -/
def existsSuffix (p : JsStr → Bool) : JsStr → Bool
  | [] => p []
  | c :: t => p (c :: t) || existsSuffix p t

/-- Truthiness of `c.match` with the date-sniffing regex above
(`src/components/SettingsView.tsx:1028`). -/
def regexDateLike (s : JsStr) : Bool := existsSuffix dateLikeAt s

/-- Match of the amount-sniffing regex `-?\d+[.,]?\d*` anchored at a position: a digit, optionally
preceded by a minus sign (the optional tail parts always match empty). -/
def numLikeAt : JsStr → Bool
  | '-' :: c :: _ => c.isDigit
  | c :: _ => c.isDigit
  | [] => false

/-- Truthiness of `c.match` with the amount-sniffing regex
(`src/components/SettingsView.tsx:1029`). -/
def regexNumLike (s : JsStr) : Bool := existsSuffix numLikeAt s

/-- The description-cell fallback predicate of
`src/components/SettingsView.tsx:1030`: `c.length > 5 && !c.match(/\d/)`. -/
def descCellPred (c : JsStr) : Bool := decide (5 < c.length) && !(hasDigitStr c)

/-- `guessMapping` from `src/components/SettingsView.tsx:1016-1039` (the
pure mapping computation; the source stores the result via `setMapping`). -/
def guessMapping (headers : List JsStr) (rows : List (List JsStr)) :
    ColumnMapping :=
  let lowerHeaders := headers.map jsToLower
  let firstRow := (rows.head?).getD []
  let dateIdx := jsFindIndex (fun h => containsSub h (js "date") ||
    containsSub h (js "datum") || containsSub h (js "zeit")) lowerHeaders
  let amountIdx := jsFindIndex (fun h => containsSub h (js "amount") ||
    containsSub h (js "betrag") || containsSub h (js "wert") ||
    containsSub h (js "saldo")) lowerHeaders
  let descIdx := jsFindIndex (fun h => containsSub h (js "desc") ||
    containsSub h (js "text") || containsSub h (js "verwendung") ||
    containsSub h (js "payee")) lowerHeaders
  let catIdx := jsFindIndex (fun h => containsSub h (js "cat") ||
    containsSub h (js "kategorie")) lowerHeaders
  let typeIdx := jsFindIndex (fun h => containsSub h (js "type") ||
    containsSub h (js "art")) lowerHeaders
  let dateIdx2 := if dateIdx = -1 then jsFindIndex regexDateLike firstRow
    else dateIdx
  let amountIdx2 := if amountIdx = -1 then jsFindIndex regexNumLike firstRow
    else amountIdx
  let descIdx2 := if descIdx = -1 then jsFindIndex descCellPred firstRow
    else descIdx
  { dateIndex := dateIdx2
    descriptionIndex := descIdx2
    amountIndex := amountIdx2
    categoryIndex := catIdx
    typeIndex := typeIdx }

/-- C9 counterexample — the content fallback for the description role does
not pick the longest digit-free cell: with headers matching no description
substring and first data row `["abcdef", "abcdefghij"]`, the code assigns
index 0 (the first cell longer than 5 characters with no digits), while the
longest digit-free cell is at index 1. -/
theorem guessMapping_desc_longest_counterexample :
    (guessMapping [js "h1", js "h2"] [[js "abcdef", js "abcdefghij"]]).descriptionIndex
        = 0 ∧
    hasDigitStr (js "abcdefghij") = false ∧
    (js "abcdef").length < (js "abcdefghij").length ∧
    (0 : ℤ) ≠ 1 := by decide

/-- C9 (amended) — when no header matches a description substring
(`desc`/`text`/`verwendung`/`payee`), the heuristic assigns the description
role to the FIRST cell of the first data row that is longer than 5
characters and contains no digit (not to the longest digit-free cell). -/
theorem guessMapping_desc_fallback (headers : List JsStr)
    (rows : List (List JsStr)) (i : ℕ) (c : JsStr)
    (hnohdr : ∀ h ∈ headers,
      containsSub (jsToLower h) (js "desc") = false ∧
      containsSub (jsToLower h) (js "text") = false ∧
      containsSub (jsToLower h) (js "verwendung") = false ∧
      containsSub (jsToLower h) (js "payee") = false)
    (hc : ((rows.head?).getD []).get? i = some c)
    (hcell : descCellPred c = true)
    (hfirst : ∀ j, j < i →
      descCellPred ((((rows.head?).getD []).get? j).getD c) = false) :
    (guessMapping headers rows).descriptionIndex = (i : ℤ) := by
  have hhdr : jsFindIndex (fun h => containsSub h (js "desc") ||
      containsSub h (js "text") || containsSub h (js "verwendung") ||
      containsSub h (js "payee")) (headers.map jsToLower) = -1 := by
    refine jsFindIndex_of_forall _ _ ?_
    intro x hx
    simp only [List.mem_map] at hx
    obtain ⟨h, hh, rfl⟩ := hx
    obtain ⟨h1, h2, h3, h4⟩ := hnohdr h hh
    simp [h1, h2, h3, h4]
  have hrow : jsFindIndex descCellPred ((rows.head?).getD []) = (i : ℤ) :=
    jsFindIndex_eq_of _ _ i c hc hcell hfirst
  simp [guessMapping, hhdr, hrow]

/-- C9 witness — first-row cells `["ab1def", "abcdefghij"]`: index 0 is long
enough but contains a digit, so the fallback assigns index 1. -/
theorem guessMapping_desc_fallback_witness :
    (guessMapping [js "h1", js "h2"] [[js "ab1def", js "abcdefghij"]]).descriptionIndex
      = (1 : ℕ) :=
  guessMapping_desc_fallback [js "h1", js "h2"] [[js "ab1def", js "abcdefghij"]]
    1 (js "abcdefghij") (by decide) (by decide) (by decide) (by decide)

/-- A decimal digit is not whitespace. -/
theorem isDigit_not_space (c : Char) (h : c.isDigit = true) :
    isJsSpace c = false := by
  simp only [Char.isDigit, Bool.and_eq_true, decide_eq_true_eq] at h
  obtain ⟨h1, h2⟩ := h
  simp only [isJsSpace, Char.isWhitespace]
  simp only [Bool.or_eq_false_iff, decide_eq_false_iff_not]
  refine ⟨⟨⟨?_, ?_⟩, ?_⟩, ?_⟩ <;> rintro rfl <;> revert h1 <;> decide

/-- `dropWhile` is the identity when no element satisfies the predicate. -/
theorem dropWhile_eq_self_of {α : Type} (p : α → Bool) (l : List α)
    (h : ∀ c ∈ l, p c = false) : l.dropWhile p = l := by
  cases l with
  | nil => rfl
  | cons a t => simp [List.dropWhile_cons, h a (by simp)]

/-- `trim` is the identity on whitespace-free strings. -/
theorem jsTrim_eq_self (s : JsStr) (h : ∀ c ∈ s, isJsSpace c = false) :
    jsTrim s = s := by
  unfold jsTrim
  rw [dropWhile_eq_self_of _ _ h,
    dropWhile_eq_self_of _ _ fun c hc => h c (List.mem_reverse.mp hc),
    List.reverse_reverse]

/-- A member makes `containsChar` true. -/
theorem containsChar_of_mem (s : JsStr) (c : Char) (hc : c ∈ s) :
    containsChar s c = true := by
  simp only [containsChar, List.any_eq_true]
  exact ⟨c, hc, by simp⟩

/-- `split` does not split a separator-free string. -/
theorem jsSplit_of_no_sep (a : JsStr) (sep : Char) (h : ∀ c ∈ a, c ≠ sep) :
    jsSplit a sep = [a] := by
  induction a with
  | nil => rfl
  | cons c t ih =>
    simp only [jsSplit, if_neg (h c (by simp))]
    rw [ih fun x hx => h x (by simp [hx])]

/-- `split` peels one separator-free prefix at a time. -/
theorem jsSplit_append_sep (a rest : JsStr) (sep : Char)
    (h : ∀ c ∈ a, c ≠ sep) :
    jsSplit (a ++ sep :: rest) sep = a :: jsSplit rest sep := by
  induction a with
  | nil => simp [jsSplit]
  | cons c t ih =>
    simp only [List.cons_append, jsSplit, if_neg (h c (by simp)),
      List.append_eq]
    rw [ih fun x hx => h x (by simp [hx])]

/-- `s` consists of exactly `n` decimal digits. -/
def digitsOfLen (n : ℕ) (s : JsStr) : Prop :=
  s.length = n ∧ ∀ c ∈ s, c.isDigit = true

instance (n : ℕ) (s : JsStr) : Decidable (digitsOfLen n s) := by
  unfold digitsOfLen; infer_instance

/-- Modelled from the spec: the repository contains no `formatDate`; §8
"Round-trip date parsing" postulates a `formatDate` that re-renders the
canonical `YYYY-MM-DD` date string in the given format tag (`YYYY-MM-DD`
renders unchanged). -/
def formatDate (iso fmt : JsStr) : JsStr :=
  match jsSplit iso '-' with
  | [y, m, d] =>
    if fmt = js "DD.MM.YYYY" then d ++ '.' :: m ++ '.' :: y
    else if fmt = js "MM/DD/YYYY" then m ++ '/' :: d ++ '/' :: y
    else iso
  | _ => iso

/-- A well-formed input of a supported format tag: a zero-padded
`DD.MM.YYYY` or `MM/DD/YYYY` locale string with a four-digit year, or a
valid ISO calendar date for the `YYYY-MM-DD` tag. -/
def WellFormedDate (fmt s : JsStr) : Prop :=
  (fmt = js "DD.MM.YYYY" ∧ ∃ d m y, s = d ++ '.' :: (m ++ '.' :: y) ∧
    digitsOfLen 2 d ∧ digitsOfLen 2 m ∧ digitsOfLen 4 y) ∨
  (fmt = js "MM/DD/YYYY" ∧ ∃ m d y, s = m ++ '/' :: (d ++ '/' :: y) ∧
    digitsOfLen 2 m ∧ digitsOfLen 2 d ∧ digitsOfLen 4 y) ∨
  (fmt = js "YYYY-MM-DD" ∧ jsDateParseIsoDate s = some s)

/-- The `DD.MM.YYYY` branch of `parseDate` on a well-formed input. -/
theorem parseDate_ddmm (d m y : JsStr) (hd : digitsOfLen 2 d)
    (hm : digitsOfLen 2 m) (hy : digitsOfLen 4 y) :
    parseDate (some (d ++ '.' :: (m ++ '.' :: y))) (js "DD.MM.YYYY")
      = some (y ++ '-' :: (m ++ '-' :: d)) := by
  obtain ⟨hdl, hdd⟩ := hd
  obtain ⟨hml, hmd⟩ := hm
  obtain ⟨hyl, hyd⟩ := hy
  set s : JsStr := d ++ '.' :: (m ++ '.' :: y) with hs
  have hmem : ∀ c ∈ s, c ∈ d ∨ c = '.' ∨ c ∈ m ∨ c ∈ y := by
    intro c hc
    rw [hs] at hc
    simp only [List.mem_append, List.mem_cons] at hc
    tauto
  have hnospace : ∀ c ∈ s, isJsSpace c = false := by
    intro c hc
    rcases hmem c hc with h | h | h | h
    · exact isDigit_not_space c (hdd c h)
    · subst h; decide
    · exact isDigit_not_space c (hmd c h)
    · exact isDigit_not_space c (hyd c h)
  have htrim : jsTrim s = s := jsTrim_eq_self _ hnospace
  have hdot : containsChar s '.' = true :=
    containsChar_of_mem _ _ (by rw [hs]; simp)
  have hguard : ((jsNumberParse s).isSome && decide (s.length < 8) &&
      !(containsChar s '.') && !(containsChar s '/')) = false := by
    rw [hdot]; simp
  have hdnd : ∀ c ∈ d, c ≠ '.' := fun c hc heq => by
    rw [heq] at hc; exact absurd (hdd _ hc) (by decide)
  have hmnd : ∀ c ∈ m, c ≠ '.' := fun c hc heq => by
    rw [heq] at hc; exact absurd (hmd _ hc) (by decide)
  have hynd : ∀ c ∈ y, c ≠ '.' := fun c hc heq => by
    rw [heq] at hc; exact absurd (hyd _ hc) (by decide)
  have hsplit : jsSplit s '.' = [d, m, y] := by
    rw [hs, jsSplit_append_sep _ _ _ hdnd, jsSplit_append_sep _ _ _ hmnd,
      jsSplit_of_no_sep _ _ hynd]
  have hne : s ≠ [] := by rw [hs]; simp
  simp only [parseDate, if_neg hne, htrim, hguard, Bool.false_eq_true,
    if_false, hsplit]
  simp only [eq_self_iff_true, if_true, hyl]
  have h42 : ¬ (4 : ℕ) = 2 := by decide
  rw [if_neg h42]
  simp [padStartZ, hml, hdl, List.append_assoc]

/-- The `MM/DD/YYYY` branch of `parseDate` on a well-formed input. -/
theorem parseDate_mmdd (m d y : JsStr) (hm : digitsOfLen 2 m)
    (hd : digitsOfLen 2 d) (hy : digitsOfLen 4 y) :
    parseDate (some (m ++ '/' :: (d ++ '/' :: y))) (js "MM/DD/YYYY")
      = some (y ++ '-' :: (m ++ '-' :: d)) := by
  obtain ⟨hml, hmd⟩ := hm
  obtain ⟨hdl, hdd⟩ := hd
  obtain ⟨hyl, hyd⟩ := hy
  set s : JsStr := m ++ '/' :: (d ++ '/' :: y) with hs
  have hmem : ∀ c ∈ s, c ∈ m ∨ c = '/' ∨ c ∈ d ∨ c ∈ y := by
    intro c hc
    rw [hs] at hc
    simp only [List.mem_append, List.mem_cons] at hc
    tauto
  have hnospace : ∀ c ∈ s, isJsSpace c = false := by
    intro c hc
    rcases hmem c hc with h | h | h | h
    · exact isDigit_not_space c (hmd c h)
    · subst h; decide
    · exact isDigit_not_space c (hdd c h)
    · exact isDigit_not_space c (hyd c h)
  have htrim : jsTrim s = s := jsTrim_eq_self _ hnospace
  have hslash : containsChar s '/' = true :=
    containsChar_of_mem _ _ (by rw [hs]; simp)
  have hguard : ((jsNumberParse s).isSome && decide (s.length < 8) &&
      !(containsChar s '.') && !(containsChar s '/')) = false := by
    rw [hslash]; simp
  have hmnd : ∀ c ∈ m, c ≠ '/' := fun c hc heq => by
    rw [heq] at hc; exact absurd (hmd _ hc) (by decide)
  have hdnd : ∀ c ∈ d, c ≠ '/' := fun c hc heq => by
    rw [heq] at hc; exact absurd (hdd _ hc) (by decide)
  have hynd : ∀ c ∈ y, c ≠ '/' := fun c hc heq => by
    rw [heq] at hc; exact absurd (hyd _ hc) (by decide)
  have hsplit : jsSplit s '/' = [m, d, y] := by
    rw [hs, jsSplit_append_sep _ _ _ hmnd, jsSplit_append_sep _ _ _ hdnd,
      jsSplit_of_no_sep _ _ hynd]
  have hne : s ≠ [] := by rw [hs]; simp
  simp only [parseDate, if_neg hne, htrim, hguard, Bool.false_eq_true,
    if_false, hsplit]
  have hff : ¬ (js "MM/DD/YYYY" = js "DD.MM.YYYY") := by decide
  rw [if_neg hff]
  simp only [eq_self_iff_true, if_true, hyl]
  have h42 : ¬ (4 : ℕ) = 2 := by decide
  rw [if_neg h42]
  simp [padStartZ, hml, hdl, List.append_assoc]

/-- `formatDate` inverts the `DD.MM.YYYY` parse. -/
theorem formatDate_ddmm (d m y : JsStr) (hd : digitsOfLen 2 d)
    (hm : digitsOfLen 2 m) (hy : digitsOfLen 4 y) :
    formatDate (y ++ '-' :: (m ++ '-' :: d)) (js "DD.MM.YYYY")
      = d ++ '.' :: (m ++ '.' :: y) := by
  obtain ⟨hdl, hdd⟩ := hd
  obtain ⟨hml, hmd⟩ := hm
  obtain ⟨hyl, hyd⟩ := hy
  have hynd : ∀ c ∈ y, c ≠ '-' := fun c hc heq => by
    rw [heq] at hc; exact absurd (hyd _ hc) (by decide)
  have hmnd : ∀ c ∈ m, c ≠ '-' := fun c hc heq => by
    rw [heq] at hc; exact absurd (hmd _ hc) (by decide)
  have hdnd : ∀ c ∈ d, c ≠ '-' := fun c hc heq => by
    rw [heq] at hc; exact absurd (hdd _ hc) (by decide)
  have hsplit : jsSplit (y ++ '-' :: (m ++ '-' :: d)) '-' = [y, m, d] := by
    rw [jsSplit_append_sep _ _ _ hynd, jsSplit_append_sep _ _ _ hmnd,
      jsSplit_of_no_sep _ _ hdnd]
  simp only [formatDate, hsplit]
  simp [List.append_assoc]

/-- `formatDate` inverts the `MM/DD/YYYY` parse. -/
theorem formatDate_mmdd (m d y : JsStr) (hm : digitsOfLen 2 m)
    (hd : digitsOfLen 2 d) (hy : digitsOfLen 4 y) :
    formatDate (y ++ '-' :: (m ++ '-' :: d)) (js "MM/DD/YYYY")
      = m ++ '/' :: (d ++ '/' :: y) := by
  obtain ⟨hml, hmd⟩ := hm
  obtain ⟨hdl, hdd⟩ := hd
  obtain ⟨hyl, hyd⟩ := hy
  have hynd : ∀ c ∈ y, c ≠ '-' := fun c hc heq => by
    rw [heq] at hc; exact absurd (hyd _ hc) (by decide)
  have hmnd : ∀ c ∈ m, c ≠ '-' := fun c hc heq => by
    rw [heq] at hc; exact absurd (hmd _ hc) (by decide)
  have hdnd : ∀ c ∈ d, c ≠ '-' := fun c hc heq => by
    rw [heq] at hc; exact absurd (hdd _ hc) (by decide)
  have hsplit : jsSplit (y ++ '-' :: (m ++ '-' :: d)) '-' = [y, m, d] := by
    rw [jsSplit_append_sep _ _ _ hynd, jsSplit_append_sep _ _ _ hmnd,
      jsSplit_of_no_sep _ _ hdnd]
  have hne1 : ¬ (js "MM/DD/YYYY" = js "DD.MM.YYYY") := by decide
  simp only [formatDate, hsplit]
  rw [if_neg hne1]
  simp [List.append_assoc]

/-- The generic (`new Date`) branch of `parseDate` together with
`formatDate` round-trips valid ISO calendar dates. -/
theorem parseDate_iso (s : JsStr) (hiso : jsDateParseIsoDate s = some s) :
    parseDate (some s) (js "YYYY-MM-DD") = some s ∧
    formatDate s (js "YYYY-MM-DD") = s := by
  have hiso0 := hiso
  unfold jsDateParseIsoDate at hiso
  split at hiso
  case h_2 => exact absurd hiso (by simp)
  case h_1 y1 y2 y3 y4 m1 m2 d1 d2 =>
    split at hiso
    case isFalse => exact absurd hiso (by simp)
    case isTrue hdig =>
      split at hiso
      case isFalse => exact absurd hiso (by simp)
      case isTrue hrange =>
        have hdigs := hdig
        simp only [Bool.and_eq_true] at hdigs
        obtain ⟨⟨⟨⟨⟨⟨⟨hy1, hy2⟩, hy3⟩, hy4⟩, hm1⟩, hm2⟩, hd1⟩, hd2⟩ := hdigs
        have hnospace : ∀ c ∈ ([y1, y2, y3, y4, '-', m1, m2, '-', d1, d2] : JsStr),
            isJsSpace c = false := by
          intro c hc
          simp only [List.mem_cons, List.not_mem_nil, or_false] at hc
          rcases hc with h | h | h | h | h | h | h | h | h | h <;> subst h
          · exact isDigit_not_space _ hy1
          · exact isDigit_not_space _ hy2
          · exact isDigit_not_space _ hy3
          · exact isDigit_not_space _ hy4
          · decide
          · exact isDigit_not_space _ hm1
          · exact isDigit_not_space _ hm2
          · decide
          · exact isDigit_not_space _ hd1
          · exact isDigit_not_space _ hd2
        have htrim : jsTrim [y1, y2, y3, y4, '-', m1, m2, '-', d1, d2]
            = [y1, y2, y3, y4, '-', m1, m2, '-', d1, d2] :=
          jsTrim_eq_self _ hnospace
        have hguard : ((jsNumberParse
              ([y1, y2, y3, y4, '-', m1, m2, '-', d1, d2] : JsStr)).isSome &&
            decide (([y1, y2, y3, y4, '-', m1, m2, '-', d1, d2] : JsStr).length < 8) &&
            !(containsChar [y1, y2, y3, y4, '-', m1, m2, '-', d1, d2] '.') &&
            !(containsChar [y1, y2, y3, y4, '-', m1, m2, '-', d1, d2] '/')) = false := by
          simp
        have hne : ([y1, y2, y3, y4, '-', m1, m2, '-', d1, d2] : JsStr) ≠ [] := by
          simp
        have hf1 : ¬ (js "YYYY-MM-DD" = js "DD.MM.YYYY") := by decide
        have hf2 : ¬ (js "YYYY-MM-DD" = js "MM/DD/YYYY") := by decide
        constructor
        · simp only [parseDate, if_neg hne, htrim, hguard, Bool.false_eq_true,
            if_false]
          rw [if_neg hf1, if_neg hf2]
          exact hiso0
        · have hynd : ∀ c ∈ ([y1, y2, y3, y4] : JsStr), c ≠ '-' := by
            intro c hc heq
            subst heq
            simp only [List.mem_cons, List.not_mem_nil, or_false] at hc
            rcases hc with h | h | h | h
            · rw [← h] at hy1; exact absurd hy1 (by decide)
            · rw [← h] at hy2; exact absurd hy2 (by decide)
            · rw [← h] at hy3; exact absurd hy3 (by decide)
            · rw [← h] at hy4; exact absurd hy4 (by decide)
          have hmnd : ∀ c ∈ ([m1, m2] : JsStr), c ≠ '-' := by
            intro c hc heq
            subst heq
            simp only [List.mem_cons, List.not_mem_nil, or_false] at hc
            rcases hc with h | h
            · rw [← h] at hm1; exact absurd hm1 (by decide)
            · rw [← h] at hm2; exact absurd hm2 (by decide)
          have hdnd : ∀ c ∈ ([d1, d2] : JsStr), c ≠ '-' := by
            intro c hc heq
            subst heq
            simp only [List.mem_cons, List.not_mem_nil, or_false] at hc
            rcases hc with h | h
            · rw [← h] at hd1; exact absurd hd1 (by decide)
            · rw [← h] at hd2; exact absurd hd2 (by decide)
          have he : ([y1, y2, y3, y4, '-', m1, m2, '-', d1, d2] : JsStr)
              = [y1, y2, y3, y4] ++ '-' :: ([m1, m2] ++ '-' :: [d1, d2]) := rfl
          have hsplit : jsSplit [y1, y2, y3, y4, '-', m1, m2, '-', d1, d2] '-'
              = [[y1, y2, y3, y4], [m1, m2], [d1, d2]] := by
            rw [he, jsSplit_append_sep _ _ _ hynd, jsSplit_append_sep _ _ _ hmnd,
              jsSplit_of_no_sep _ _ hdnd]
          simp only [formatDate, hsplit]
          rw [if_neg hf1, if_neg hf2]

/-- C7 — date parsing and the spec's round trip: the two canonical examples
parse to `2023-12-25`, and every well-formed input of a supported format tag
parses to a canonical ISO date that `formatDate` renders back to the
original string. -/
theorem parseDate_round_trip :
    parseDate (some (js "25.12.2023")) (js "DD.MM.YYYY")
        = some (js "2023-12-25") ∧
    parseDate (some (js "12/25/2023")) (js "MM/DD/YYYY")
        = some (js "2023-12-25") ∧
    ∀ fmt s, WellFormedDate fmt s →
      ∃ iso, parseDate (some s) fmt = some iso ∧ formatDate iso fmt = s := by
  refine ⟨by decide, by decide, ?_⟩
  intro fmt s hwf
  rcases hwf with ⟨hfmt, d, m, y, hs, hd, hm, hy⟩ |
    ⟨hfmt, m, d, y, hs, hm, hd, hy⟩ | ⟨hfmt, hiso⟩
  · subst hfmt; subst hs
    exact ⟨y ++ '-' :: (m ++ '-' :: d), parseDate_ddmm d m y hd hm hy,
      formatDate_ddmm d m y hd hm hy⟩
  · subst hfmt; subst hs
    exact ⟨y ++ '-' :: (m ++ '-' :: d), parseDate_mmdd m d y hm hd hy,
      formatDate_mmdd m d y hm hd hy⟩
  · subst hfmt
    obtain ⟨h1, h2⟩ := parseDate_iso s hiso
    exact ⟨s, h1, h2⟩

/-- C7 witness — the round trip instantiated at `"31.01.2024"` with the
`DD.MM.YYYY` tag. -/
theorem parseDate_round_trip_witness :
    ∃ iso, parseDate (some (js "31.01.2024")) (js "DD.MM.YYYY") = some iso ∧
      formatDate iso (js "DD.MM.YYYY") = js "31.01.2024" :=
  parseDate_round_trip.2.2 (js "DD.MM.YYYY") (js "31.01.2024")
    (Or.inl ⟨rfl, js "31", js "01", js "2024", by decide, by decide,
      by decide, by decide⟩)

end FinInsight
